import Mathlib

/-!
Shallow embedding of the Web-Sage extraction / indexing / answering pipeline
(`websage/utils/document_processing.py`, `websage/extractors/*.py`,
`websage/models/embeddings.py`, `websage/models/question_answering.py`,
`app.py`) and proofs about it.

External collaborators (the HTTP fetch, BeautifulSoup's `get_text`, the
LangChain loaders and the Html2Text transform) are modelled as function
parameters; everything the repository's own Python code does to their
results is embedded directly.  Python strings are Lean `String`s;
`str.strip` / `str.startswith` are modelled character-wise below; a Python
`dict` built by keyed assignment is an association list with
insert-or-update semantics.
-/

namespace WebSage

/-- Model of Python `str.strip()` on a character list: drop whitespace from
both ends. -/
def pyStripL (l : List Char) : List Char :=
  ((l.dropWhile Char.isWhitespace).reverse.dropWhile Char.isWhitespace).reverse

/-- Model of Python `str.strip()`: drop whitespace from both ends. -/
def pyStrip (s : String) : String :=
  String.mk (pyStripL s.toList)

/-- Split a character list at newline characters (model of Python
`str.splitlines` as used on the flattened page text). -/
def splitOnNewline : List Char → List (List Char)
  | [] => [[]]
  | c :: rest =>
    if c = '\n' then [] :: splitOnNewline rest
    else
      match splitOnNewline rest with
      | [] => [[c]]
      | l :: ls => (c :: l) :: ls

/-- Split a character list at (non-overlapping, leftmost-first) occurrences
of two consecutive spaces (model of Python `line.split("  ")`). -/
def splitOnDoubleSpace : List Char → List (List Char)
  | [] => [[]]
  | [c] => [[c]]
  | c1 :: c2 :: rest =>
    if c1 = ' ' ∧ c2 = ' ' then [] :: splitOnDoubleSpace rest
    else
      match splitOnDoubleSpace (c2 :: rest) with
      | [] => [[c1]]
      | l :: ls => (c1 :: l) :: ls

/-- Join character lists with a newline between consecutive pieces (model of
Python `"\n".join(...)`). -/
def joinWithNewline : List (List Char) → List Char
  | [] => []
  | [l] => l
  | l :: ls => l ++ '\n' :: joinWithNewline ls

/-- Model of Python `s.startswith(p)`. -/
def pyStartsWith (s p : String) : Bool :=
  p.toList.isPrefixOf s.toList

/-- A LangChain `Document`: `page_content` plus the `"source"` metadata entry
(the absent/None metadata case is modelled as the empty string, which is
exactly what the orchestrator's truthiness test `if url:` distinguishes). -/
structure Document where
  page_content : String
  source : String
deriving DecidableEq

/-- A Python dict from URL to content, as an ordered association list. -/
abbrev SMap := List (String × String)

/-- Keyed assignment `m[k] = v` on a dict: update in place if the key
exists, otherwise append at the end (Python insertion order). -/
def insertAL (m : SMap) (k v : String) : SMap :=
  match m with
  | [] => [(k, v)]
  | (k', v') :: rest =>
    if k' = k then (k, v) :: rest else (k', v') :: insertAL rest k v

/-- The key list of a dict. -/
def keysAL (m : SMap) : List String := m.map Prod.fst

/-! ### Single-page extractor (`beautifulsoup_extractor.py`) -/

/-- The whitespace-collapsing cleanup of `extract_content_from_url`
(lines 35-37): strip each line, split lines at double spaces, keep the
non-empty chunks and re-join them with newlines. -/
def cleanText (raw : String) : String :=
  let lines := (splitOnNewline raw.toList).map pyStripL
  let chunks := lines.flatMap (fun line => (splitOnDoubleSpace line).map pyStripL)
  String.mk (joinWithNewline (chunks.filter (fun c => c ≠ [])))

/-- `extract_content_from_url url`: fetch the page (modelled by `fetch`,
which returns the response body or the exception's message), extract the
raw text of the parsed HTML minus script/style/header/footer/nav (modelled
by `getText`), collapse whitespace, and reject empty or too-short results.
Every failure is returned as an `"Error extracting content from ..."`
string, exactly as the Python function does. -/
def extract_content_from_url (fetch : String → Except String String)
    (getText : String → String) (url : String) : String :=
  match fetch url with
  | Except.error e => "Error extracting content from " ++ url ++ ": " ++ e
  | Except.ok body =>
    let text := cleanText (getText body)
    if text = "" ∨ (pyStrip text).length < 10 then
      "Error extracting content from " ++ url ++ ": Content was empty or too short"
    else text

/-! ### LangChain extractors (`langchain_extractor.py`) -/

/-- `extract_content_with_langchain url`: load the page with WebBaseLoader
(modelled by `loadW`); if no document came back or the first document's
stripped text is shorter than 10 characters, return the single error
sentinel document, otherwise return the loaded documents unchanged. -/
def extract_content_with_langchain (loadW : String → List Document)
    (url : String) : List Document :=
  let docs := loadW url
  match docs with
  | [] => [⟨"Error extracting content from " ++ url ++ ": Content was empty or too short", url⟩]
  | d :: _ =>
    if (pyStrip d.page_content).length < 10 then
      [⟨"Error extracting content from " ++ url ++ ": Content was empty or too short", url⟩]
    else docs

/-- `extract_content_with_html2text urls`: bulk-load all pages with
AsyncHtmlLoader (modelled by `load`; each returned document carries the
fetched URL as its `source`), transform each page's HTML to text (modelled
by `h2t`, applied per document with metadata preserved), drop every
transformed document whose stripped text is shorter than 10 characters,
and fall back to a single error sentinel document when nothing was loaded
or nothing survived validation. -/
def extract_content_with_html2text (load : List String → List Document)
    (h2t : String → String) (urls : List String) : List Document :=
  let docs := load urls
  if docs.isEmpty then
    [⟨"Error extracting content from URLs: No content extracted",
      String.intercalate ", " urls⟩]
  else
    let docs_transformed := docs.map (fun d => { d with page_content := h2t d.page_content })
    let valid_docs := docs_transformed.filter (fun d => 10 ≤ (pyStrip d.page_content).length)
    if valid_docs.isEmpty then
      [⟨"Error extracting content from URLs: All documents had insufficient content",
        String.intercalate ", " urls⟩]
    else valid_docs

/-! ### Extraction orchestrator (`document_processing.py`, `process_urls`) -/

/-- The bundle of external collaborators the orchestrator's extractors use:
`load` is AsyncHtmlLoader (batch), `h2t` the Html2Text transform, `loadW`
WebBaseLoader, `fetch`/`getText` the HTTP get and BeautifulSoup text
extraction of the single-page extractor. -/
structure Extractors where
  load : List String → List Document
  h2t : String → String
  loadW : String → List Document
  fetch : String → Except String String
  getText : String → String

/-- A network fetch attempt made by the orchestrator, for stating ordering
properties of the fallback cascade: one batch AsyncHtmlLoader call, one
WebBaseLoader call per URL, one BeautifulSoup request per URL. -/
inductive FetchEvent where
  | batch (urls : List String)
  | webbase (url : String)
  | bsoup (url : String)
deriving DecidableEq

/-- URL normalization of `process_urls` (lines 24-31): strip each entry,
drop the ones that became empty, and prepend `https://` to entries lacking
an `http://` or `https://` scheme, keeping the original order. -/
def clean_urls : List String → List String
  | [] => []
  | url :: rest =>
    let u := pyStrip url
    if u = "" then clean_urls rest
    else
      (if pyStartsWith u "http://" ∨ pyStartsWith u "https://" then u
       else "https://" ++ u) :: clean_urls rest

/-- The loop over the batch extractor's documents (lines 43-49): a document
whose `source` metadata is truthy and whose content does not start with
`"Error"` is stored under its source URL and marks the batch as having
valid content. Returns the updated dict and the `has_valid_content` flag. -/
def collectBatch (docs : List Document) (contents : SMap) (hv : Bool) : SMap × Bool :=
  match docs with
  | [] => (contents, hv)
  | d :: rest =>
    if d.source ≠ "" ∧ pyStartsWith d.page_content "Error" = false then
      collectBatch rest (insertAL contents d.source d.page_content) true
    else collectBatch rest contents hv

/-- The per-URL WebBaseLoader fallback loop (lines 54-63): for each URL the
first returned document is stored when present and not an error sentinel. -/
def collectWebBase (loadW : String → List Document) (urls : List String)
    (contents : SMap) (hv : Bool) : SMap × Bool :=
  match urls with
  | [] => (contents, hv)
  | u :: rest =>
    match extract_content_with_langchain loadW u with
    | [] => collectWebBase loadW rest contents hv
    | d :: _ =>
      if pyStartsWith d.page_content "Error" = false then
        collectWebBase loadW rest (insertAL contents u d.page_content) true
      else collectWebBase loadW rest contents hv

/-- The per-URL BeautifulSoup fallback loop (lines 68-74): store each URL's
extraction result unless it is an error sentinel. -/
def collectBSoup (fetch : String → Except String String) (getText : String → String)
    (urls : List String) (contents : SMap) (hv : Bool) : SMap × Bool :=
  match urls with
  | [] => (contents, hv)
  | u :: rest =>
    let content := extract_content_from_url fetch getText u
    if pyStartsWith content "Error" = false then
      collectBSoup fetch getText rest (insertAL contents u content) true
    else collectBSoup fetch getText rest contents hv

/-- The traditional-method loop (lines 84-85): store each URL's
BeautifulSoup extraction result unconditionally, error sentinel or not. -/
def collectSimple (fetch : String → Except String String) (getText : String → String)
    (urls : List String) (contents : SMap) : SMap :=
  match urls with
  | [] => contents
  | u :: rest =>
    collectSimple fetch getText rest (insertAL contents u (extract_content_from_url fetch getText u))

/-- The batch extractor's output on the cleaned URLs (line 39). -/
def batchDocs (E : Extractors) (clean : List String) : List Document :=
  extract_content_with_html2text E.load E.h2t clean

/-- Dict and `has_valid_content` after the batch collection loop. -/
def afterBatch (E : Extractors) (clean : List String) : SMap × Bool :=
  collectBatch (batchDocs E clean) [] false

/-- Dict and flag after the conditional WebBaseLoader fallback (line 52):
the loop only runs when the batch produced no valid content. -/
def afterWebBase (E : Extractors) (clean : List String) : SMap × Bool :=
  if (afterBatch E clean).2 then afterBatch E clean
  else collectWebBase E.loadW clean (afterBatch E clean).1 false

/-- Dict after the conditional BeautifulSoup fallback (line 66): the loop
only runs when both LangChain methods produced no valid content. -/
def langchainContents (E : Extractors) (clean : List String) : SMap :=
  if (afterWebBase E clean).2 then (afterWebBase E clean).1
  else (collectBSoup E.fetch E.getText clean (afterWebBase E clean).1 false).1

/-- The fetch attempts the LangChain branch makes, in order: the batch
call, then (only on batch failure) one WebBaseLoader call per cleaned URL,
then (only if still nothing valid) one BeautifulSoup request per URL. -/
def langchainTrace (E : Extractors) (clean : List String) : List FetchEvent :=
  FetchEvent.batch clean ::
    ((if (afterBatch E clean).2 then [] else clean.map FetchEvent.webbase) ++
     (if (afterWebBase E clean).2 then [] else clean.map FetchEvent.bsoup))

/-- The final-check filter of `process_urls` (lines 88-93): keep only the
entries whose content does not start with `"Error"`. The Python code
computes this dict as `valid_contents` and logs its size — but line 100
returns the unfiltered `contents`, so this filter's result is discarded. -/
def final_valid_contents (contents : SMap) : SMap :=
  contents.filter (fun p => pyStartsWith p.2 "Error" = false)

/-- `process_urls urls use_langchain`: normalize the URLs, then either run
the LangChain fallback cascade (batch → per-URL WebBaseLoader → per-URL
BeautifulSoup) when `use_langchain` is set and some URL survived cleaning,
or run the unconditional BeautifulSoup loop. Returns the contents dict the
Python function returns (the unfiltered `contents` of line 100) paired
with the list of fetch attempts made, in order. The `except` fallback of
lines 76-81 is unreachable here because both LangChain extractors catch
every exception internally and are modelled as total functions. -/
def process_urls (E : Extractors) (urls : List String) (use_langchain : Bool) :
    SMap × List FetchEvent :=
  let clean := clean_urls urls
  if use_langchain ∧ clean ≠ [] then
    (langchainContents E clean, langchainTrace E clean)
  else
    (collectSimple E.fetch E.getText clean [], clean.map FetchEvent.bsoup)

/-! ### Document builder and chunker (`document_processing.py`) -/

/-- `create_documents_from_contents contents`: one `Document` per dict
entry whose content does not start with `"Error"`, tagged with its URL as
source, in dict order. -/
def create_documents_from_contents : SMap → List Document
  | [] => []
  | (url, content) :: rest =>
    if pyStartsWith content "Error" = false then
      ⟨content, url⟩ :: create_documents_from_contents rest
    else create_documents_from_contents rest

/-- `split_documents documents`: an empty input returns `[]` immediately
(lines 134-136); otherwise the RecursiveCharacterTextSplitter — external
LangChain code, modelled by the parameter `splitter` — is applied. -/
def split_documents (splitter : List Document → List Document)
    (documents : List Document) : List Document :=
  if documents.isEmpty then [] else splitter documents

/-! ### Embedding gateway (`models/embeddings.py`) -/

/-- The constructor arguments of `HuggingFaceInferenceAPIEmbeddings` as
built by `create_vector_store` (lines 34-37). -/
structure EmbeddingsClient where
  api_key : String
  model_name : String
deriving DecidableEq

/-- Python truthiness of an environment variable: present and non-empty. -/
def truthy : Option String → Bool
  | none => false
  | some s => s ≠ ""

/-- Externally visible effects of `create_vector_store`, to state that the
missing-credential check happens before the embedding client is built and
before the index construction (the only network-touching steps) runs. -/
inductive EmbedEvent where
  | buildClient (client : EmbeddingsClient)
  | buildIndex
deriving DecidableEq

/-- `create_vector_store documents` (lines 28-44): with no HuggingFace
token, raise the configuration `ValueError` at once; otherwise construct
the embeddings client and build the FAISS index from the documents
(modelled by `fromDocuments`). The result is paired with the trace of
effectful steps performed. -/
def create_vector_store {α : Type} (hfToken : Option String)
    (fromDocuments : List Document → EmbeddingsClient → α)
    (documents : List Document) : Except String α × List EmbedEvent :=
  if truthy hfToken = false then
    (Except.error "No embeddings service available - please set HUGGINGFACEHUB_API_TOKEN in your .env file", [])
  else
    let embeddings : EmbeddingsClient := ⟨hfToken.getD "", "BAAI/bge-base-en-v1.5"⟩
    (Except.ok (fromDocuments documents embeddings),
     [EmbedEvent.buildClient embeddings, EmbedEvent.buildIndex])

/-! ### Concrete collaborator bundles used to evaluate the model -/

/-- Collaborators for which every network operation fails: the batch and
single-URL loaders return nothing and the HTTP get raises
`connection refused`. -/
def failingExtractors : Extractors :=
  ⟨fun _ => [], fun s => s, fun _ => [], fun _ => Except.error "connection refused", fun s => s⟩

/-- Collaborators whose batch loader returns one 13-character document
sourced at `https://a`, with identity transform and failing single-URL
paths. -/
def batchOkExtractors : Extractors :=
  ⟨fun _ => [⟨"0123456789abc", "https://a"⟩], fun s => s, fun _ => [],
   fun _ => Except.error "connection refused", fun s => s⟩

/-! ### Answering backend selection (`question_answering.py`, `app.py`) -/

/-- The credential environment read at startup by both `app.py` (lines
24-28) and `question_answering.py` (lines 15-19). -/
structure Config where
  openai_api_key : Option String
  azure_api_key : Option String
  azure_endpoint : Option String
  azure_api_version : Option String
  azure_deployment : Option String
deriving DecidableEq

/-- `using_azure = azure_api_key and azure_endpoint and azure_deployment`
(`app.py` line 33, `question_answering.py` line 22). -/
def using_azure (cfg : Config) : Bool :=
  truthy cfg.azure_api_key && truthy cfg.azure_endpoint && truthy cfg.azure_deployment

/-- `has_credentials = openai_api_key or using_azure` (`app.py` line 34). -/
def has_credentials (cfg : Config) : Bool :=
  truthy cfg.openai_api_key || using_azure cfg

/-- The answering backend in effect for the process. -/
inductive Backend where
  | azure
  | openaiDirect
  | disabled
deriving DecidableEq

/-- Which LLM `setup_qa_system` constructs once invoked (lines 34-49): the
Azure client iff `using_azure`, else the direct OpenAI client. -/
def setup_qa_llm (cfg : Config) : Backend :=
  if using_azure cfg then Backend.azure else Backend.openaiDirect

/-- The backend active for the session: `app.py` gates every answering
path behind `has_credentials` (warning instead of the input section when
false), and `setup_qa_system` then selects the client. -/
def activeBackend (cfg : Config) : Backend :=
  if has_credentials cfg then setup_qa_llm cfg else Backend.disabled

/-! ## Theorems -/

/-- C9: the chunker (`split_documents`) applied to an empty document list
returns an empty segment list, for any underlying text splitter, without
any error (the function is total and never reaches the splitter). -/
theorem split_documents_empty (splitter : List Document → List Document) :
    split_documents splitter [] = [] := rfl

/-- C8: if no embedding credential is configured (`HUGGINGFACEHUB_API_TOKEN`
absent or empty), `create_vector_store` fails with the configuration error
for every document list, and its effect trace is empty: neither the
embeddings client construction nor the index build is attempted. -/
theorem create_vector_store_no_token {α : Type}
    (hfToken : Option String) (fromDocuments : List Document → EmbeddingsClient → α)
    (documents : List Document) (h : truthy hfToken = false) :
    create_vector_store hfToken fromDocuments documents =
      (Except.error "No embeddings service available - please set HUGGINGFACEHUB_API_TOKEN in your .env file",
       []) := by
  unfold create_vector_store
  rw [if_pos h]

/-- Witness for C8 at the concrete input `hfToken = none`, `documents = []`. -/
theorem create_vector_store_no_token_witness :
    truthy none = false ∧
    create_vector_store none (fun _ _ => (0 : Nat)) [] =
      (Except.error "No embeddings service available - please set HUGGINGFACEHUB_API_TOKEN in your .env file",
       []) :=
  ⟨rfl, create_vector_store_no_token none (fun _ _ => (0 : Nat)) [] rfl⟩

/-- C7: backend selection is deterministic: the Azure backend is active
exactly when the Azure API key, endpoint and deployment name are all
present; otherwise the direct OpenAI backend is active exactly when its
key is present; otherwise answering is disabled. -/
theorem backend_selection_precedence (cfg : Config) :
    (activeBackend cfg = Backend.azure ↔
      (truthy cfg.azure_api_key = true ∧ truthy cfg.azure_endpoint = true ∧
       truthy cfg.azure_deployment = true)) ∧
    (activeBackend cfg = Backend.openaiDirect ↔
      (¬(truthy cfg.azure_api_key = true ∧ truthy cfg.azure_endpoint = true ∧
         truthy cfg.azure_deployment = true) ∧ truthy cfg.openai_api_key = true)) ∧
    (activeBackend cfg = Backend.disabled ↔
      (¬(truthy cfg.azure_api_key = true ∧ truthy cfg.azure_endpoint = true ∧
         truthy cfg.azure_deployment = true) ∧ truthy cfg.openai_api_key = false)) := by
  unfold activeBackend setup_qa_llm has_credentials using_azure
  cases truthy cfg.openai_api_key <;> cases truthy cfg.azure_api_key <;>
    cases truthy cfg.azure_endpoint <;> cases truthy cfg.azure_deployment <;> simp

/-- C10: success versus failure of an entry is decided solely by the
`"Error"` content test: `create_documents_from_contents` yields the
document for a URL/content pair exactly when the pair is in the dict and
the content does not start with `"Error"` — so a genuinely extracted page
whose text happens to begin with `"Error"` is excluded. -/
theorem create_documents_error_test (contents : SMap) (url content : String) :
    (⟨content, url⟩ : Document) ∈ create_documents_from_contents contents ↔
      ((url, content) ∈ contents ∧ pyStartsWith content "Error" = false) := by
  induction contents with
  | nil => simp [create_documents_from_contents]
  | cons p rest ih =>
    obtain ⟨u, c⟩ := p
    simp only [create_documents_from_contents]
    by_cases h : pyStartsWith c "Error" = false
    · rw [if_pos h]
      simp only [List.mem_cons, Document.mk.injEq, Prod.mk.injEq, ih]
      constructor
      · rintro (⟨hc, hu⟩ | ⟨hm, hp⟩)
        · subst hc; subst hu; exact ⟨Or.inl ⟨rfl, rfl⟩, h⟩
        · exact ⟨Or.inr hm, hp⟩
      · rintro ⟨hu | hm, hp⟩
        · obtain ⟨h1, h2⟩ := hu; subst h1; subst h2; exact Or.inl ⟨rfl, rfl⟩
        · exact Or.inr ⟨hm, hp⟩
    · rw [if_neg h]
      simp only [List.mem_cons, Prod.mk.injEq, ih]
      constructor
      · rintro ⟨hm, hp⟩; exact ⟨Or.inr hm, hp⟩
      · rintro ⟨hu | hm, hp⟩
        · obtain ⟨h1, h2⟩ := hu; subst h1; subst h2; exact absurd hp h
        · exact ⟨hm, hp⟩

/-- C4: whenever the fetch succeeds, `extract_content_from_url` returns
the empty-content error sentinel if the cleaned extracted text is empty or
shorter than 10 characters, and otherwise returns the cleaned text
verbatim. -/
theorem extract_content_short_text (fetch : String → Except String String)
    (getText : String → String) (url body : String)
    (h : fetch url = Except.ok body) :
    ((cleanText (getText body) = "" ∨ (pyStrip (cleanText (getText body))).length < 10) →
      extract_content_from_url fetch getText url =
        "Error extracting content from " ++ url ++ ": Content was empty or too short") ∧
    (¬(cleanText (getText body) = "" ∨ (pyStrip (cleanText (getText body))).length < 10) →
      extract_content_from_url fetch getText url = cleanText (getText body)) := by
  unfold extract_content_from_url
  rw [h]
  constructor
  · intro hc
    exact if_pos hc
  · intro hc
    exact if_neg hc

/-- Witness for C4 at a concrete fetch whose page text cleans to the
4-character string `tiny`. -/
theorem extract_content_short_text_witness :
    (cleanText "tiny" = "" ∨ (pyStrip (cleanText "tiny")).length < 10) ∧
    extract_content_from_url (fun _ => Except.ok "tiny") (fun s => s) "u" =
      "Error extracting content from " ++ "u" ++ ": Content was empty or too short" :=
  ⟨by decide,
   (extract_content_short_text (fun _ => Except.ok "tiny") (fun s => s) "u" "tiny" rfl).1
     (by decide)⟩

/-- C5: `process_urls` normalizes its input before any fetch: the cleaned
URL list is exactly the input with entries stripped, blanks dropped and
`https://` prepended to schemeless entries, and every fetch attempt the
orchestrator makes (for either strategy flag) addresses only cleaned
URLs — the batch call receives the cleaned list itself and each per-URL
call receives a member of it. -/
theorem normalization_before_fetch (E : Extractors) (urls : List String) (b : Bool) :
    clean_urls urls =
      ((urls.map pyStrip).filter (fun u => u ≠ "")).map
        (fun u => if pyStartsWith u "http://" ∨ pyStartsWith u "https://" then u
                  else "https://" ++ u) ∧
    (∀ e ∈ (process_urls E urls b).2,
      e = FetchEvent.batch (clean_urls urls) ∨
      ∃ u ∈ clean_urls urls, e = FetchEvent.webbase u ∨ e = FetchEvent.bsoup u) := by
  constructor
  · induction urls with
    | nil => simp [clean_urls]
    | cons x rest ih =>
      simp only [clean_urls, List.map_cons, List.filter_cons]
      by_cases h : pyStrip x = ""
      · simp [h, ih]
      · simp [h, ih]
  · intro e he
    simp only [process_urls] at he
    split at he
    · simp only [langchainTrace, List.mem_cons, List.mem_append] at he
      rcases he with he | he | he
      · exact Or.inl he
      · right
        split at he
        · simp at he
        · obtain ⟨u, hu, rfl⟩ := List.mem_map.mp he
          exact ⟨u, hu, Or.inl rfl⟩
      · right
        split at he
        · simp at he
        · obtain ⟨u, hu, rfl⟩ := List.mem_map.mp he
          exact ⟨u, hu, Or.inr rfl⟩
    · right
      obtain ⟨u, hu, rfl⟩ := List.mem_map.mp he
      exact ⟨u, hu, Or.inr rfl⟩

/-- C3: in the batch extractor, every transformed document whose stripped
text is shorter than the 10-character threshold is dropped from the
returned set, and when no document survives validation the returned value
is a single error sentinel document, never an empty list. -/
theorem html2text_drops_short_documents (load : List String → List Document)
    (h2t : String → String) (urls : List String) (_hne : urls ≠ []) :
    (∀ d ∈ (load urls).map (fun x => { x with page_content := h2t x.page_content }),
      (pyStrip d.page_content).length < 10 →
      d ∉ extract_content_with_html2text load h2t urls) ∧
    ((∀ d ∈ (load urls).map (fun x => { x with page_content := h2t x.page_content }),
        (pyStrip d.page_content).length < 10) →
      (extract_content_with_html2text load h2t urls).length = 1 ∧
      ∀ d ∈ extract_content_with_html2text load h2t urls,
        pyStartsWith d.page_content "Error" = true) := by
  simp only [extract_content_with_html2text]
  by_cases hl : (load urls).isEmpty = true
  · rw [if_pos hl]
    have hnil : load urls = [] := List.isEmpty_iff.mp hl
    constructor
    · intro d hd
      rw [hnil] at hd
      simp at hd
    · intro _
      refine ⟨rfl, ?_⟩
      intro d hd
      simp only [List.mem_singleton] at hd
      subst hd
      show pyStartsWith "Error extracting content from URLs: No content extracted" "Error" = true
      decide
  · rw [if_neg hl]
    by_cases hv : (((load urls).map
        (fun x => { x with page_content := h2t x.page_content })).filter
          (fun d => 10 ≤ (pyStrip d.page_content).length)).isEmpty = true
    · rw [if_pos hv]
      constructor
      · intro d _ hshort hmem
        simp only [List.mem_singleton] at hmem
        subst hmem
        have hlong : ¬((pyStrip
            "Error extracting content from URLs: All documents had insufficient content").length < 10) := by
          decide
        exact hlong hshort
      · intro _
        refine ⟨rfl, ?_⟩
        intro d hd
        simp only [List.mem_singleton] at hd
        subst hd
        show pyStartsWith
          "Error extracting content from URLs: All documents had insufficient content" "Error" = true
        decide
    · rw [if_neg hv]
      constructor
      · intro d _ hshort hmem
        have h10 := of_decide_eq_true (List.mem_filter.mp hmem).2
        omega
      · intro hall
        exfalso
        apply hv
        rw [List.isEmpty_iff, List.filter_eq_nil_iff]
        intro a ha
        have := hall a ha
        simp only [decide_eq_true_eq]
        omega

/-- Witness for C3 with a batch loader that returns nothing for the
single-element URL list. -/
theorem html2text_drops_short_documents_witness :
    (["u"] : List String) ≠ [] ∧
    (extract_content_with_html2text (fun _ => []) (fun s => s) ["u"]).length = 1 :=
  ⟨by decide,
   ((html2text_drops_short_documents (fun _ => []) (fun s => s) ["u"] (by decide)).2
     (by decide)).1⟩

/-- C2: with the structure-preserving strategy on a non-empty cleaned URL
list, if the batch extractor yields no usable content for any URL
(`has_valid_content` stays false after the batch loop), then the per-URL
WebBaseLoader fallback is invoked for every URL, and every BeautifulSoup
fetch — if any happens at all — comes after all of those calls: the trace
is the batch call, then the full WebBaseLoader pass, then only
BeautifulSoup events. -/
theorem fallback_cascade_ordering (E : Extractors) (urls : List String)
    (hne : clean_urls urls ≠ [])
    (hbatch : (afterBatch E (clean_urls urls)).2 = false) :
    (∀ u ∈ clean_urls urls, FetchEvent.webbase u ∈ (process_urls E urls true).2) ∧
    ∃ tl, (process_urls E urls true).2 =
        FetchEvent.batch (clean_urls urls) ::
          ((clean_urls urls).map FetchEvent.webbase ++ tl) ∧
      ∀ e ∈ tl, ∃ u ∈ clean_urls urls, e = FetchEvent.bsoup u := by
  have htr : (process_urls E urls true).2 =
      FetchEvent.batch (clean_urls urls) ::
        ((clean_urls urls).map FetchEvent.webbase ++
         (if (afterWebBase E (clean_urls urls)).2 then []
          else (clean_urls urls).map FetchEvent.bsoup)) := by
    simp only [process_urls]
    rw [if_pos ⟨trivial, hne⟩]
    unfold langchainTrace
    rw [hbatch]
    simp
  refine ⟨?_, ⟨(if (afterWebBase E (clean_urls urls)).2 then []
    else (clean_urls urls).map FetchEvent.bsoup), htr, ?_⟩⟩
  · intro u hu
    rw [htr]
    exact List.mem_cons_of_mem _ (List.mem_append_left _ (List.mem_map_of_mem _ hu))
  · intro e he
    by_cases hw : (afterWebBase E (clean_urls urls)).2 = true
    · rw [if_pos hw] at he
      simp at he
    · rw [if_neg hw] at he
      obtain ⟨u, hu, rfl⟩ := List.mem_map.mp he
      exact ⟨u, hu, rfl⟩

/-- Witness for C2: with every collaborator failing, the WebBaseLoader
fallback event for the single cleaned URL is in the orchestrator's trace. -/
theorem fallback_cascade_ordering_witness :
    FetchEvent.webbase "https://a" ∈ (process_urls failingExtractors ["a"] true).2 :=
  (fallback_cascade_ordering failingExtractors ["a"] (by decide) (by decide)).1
    "https://a" (by decide)

/-- Keyed assignment adds at most the assigned key to a dict's key set. -/
theorem keysAL_insertAL (m : SMap) (k v : String) :
    ∀ x ∈ keysAL (insertAL m k v), x = k ∨ x ∈ keysAL m := by
  induction m with
  | nil => simp [insertAL, keysAL]
  | cons p rest ih =>
    obtain ⟨k', v'⟩ := p
    intro x hx
    simp only [insertAL] at hx
    by_cases h : k' = k
    · rw [if_pos h] at hx
      rcases List.mem_cons.mp hx with h1 | h1
      · exact Or.inl h1
      · exact Or.inr (List.mem_cons_of_mem _ h1)
    · rw [if_neg h] at hx
      rcases List.mem_cons.mp hx with h1 | h1
      · exact Or.inr (by simp [keysAL, h1])
      · rcases ih x h1 with h2 | h2
        · exact Or.inl h2
        · exact Or.inr (List.mem_cons_of_mem _ h2)

/-- The batch collection loop only adds keys that are sources of
non-sentinel documents in its input. -/
theorem collectBatch_keys (S : List String) (docs : List Document) :
    ∀ contents hv, (∀ d ∈ docs, pyStartsWith d.page_content "Error" = true ∨ d.source ∈ S) →
      (∀ x ∈ keysAL contents, x ∈ S) →
      ∀ x ∈ keysAL (collectBatch docs contents hv).1, x ∈ S := by
  induction docs with
  | nil =>
    intro contents hv _ hc
    simpa [collectBatch] using hc
  | cons d rest ih =>
    intro contents hv hd hc x hx
    simp only [collectBatch] at hx
    by_cases h : d.source ≠ "" ∧ pyStartsWith d.page_content "Error" = false
    · rw [if_pos h] at hx
      refine ih _ _ (fun a ha => hd a (List.mem_cons_of_mem _ ha)) ?_ x hx
      intro y hy
      rcases keysAL_insertAL contents d.source d.page_content y hy with h1 | h1
      · subst h1
        rcases hd d (List.mem_cons_self d rest) with h2 | h2
        · rw [h.2] at h2; exact absurd h2 (by simp)
        · exact h2
      · exact hc y h1
    · rw [if_neg h] at hx
      exact ih _ _ (fun a ha => hd a (List.mem_cons_of_mem _ ha)) hc x hx

/-- The WebBaseLoader fallback loop only adds keys from its URL list. -/
theorem collectWebBase_keys (S : List String) (loadW : String → List Document)
    (urls : List String) :
    ∀ contents hv, (∀ u ∈ urls, u ∈ S) → (∀ x ∈ keysAL contents, x ∈ S) →
      ∀ x ∈ keysAL (collectWebBase loadW urls contents hv).1, x ∈ S := by
  induction urls with
  | nil =>
    intro contents hv _ hc
    simpa [collectWebBase] using hc
  | cons u rest ih =>
    intro contents hv hu hc x hx
    have hrest : ∀ a ∈ rest, a ∈ S := fun a ha => hu a (List.mem_cons_of_mem _ ha)
    have hins : ∀ (c : String) (y : String),
        y ∈ keysAL (insertAL contents u c) → y ∈ S := by
      intro c y hy
      rcases keysAL_insertAL contents u c y hy with h1 | h1
      · rw [h1]; exact hu u (List.mem_cons_self u rest)
      · exact hc y h1
    cases hm : extract_content_with_langchain loadW u with
    | nil =>
      simp only [collectWebBase, hm] at hx
      exact ih _ _ hrest hc x hx
    | cons d ds =>
      simp only [collectWebBase, hm] at hx
      by_cases h : pyStartsWith d.page_content "Error" = false
      · rw [if_pos h] at hx
        exact ih _ _ hrest (hins d.page_content) x hx
      · rw [if_neg h] at hx
        exact ih _ _ hrest hc x hx

/-- The BeautifulSoup fallback loop only adds keys from its URL list. -/
theorem collectBSoup_keys (S : List String) (fetch : String → Except String String)
    (getText : String → String) (urls : List String) :
    ∀ contents hv, (∀ u ∈ urls, u ∈ S) → (∀ x ∈ keysAL contents, x ∈ S) →
      ∀ x ∈ keysAL (collectBSoup fetch getText urls contents hv).1, x ∈ S := by
  induction urls with
  | nil =>
    intro contents hv _ hc
    simpa [collectBSoup] using hc
  | cons u rest ih =>
    intro contents hv hu hc x hx
    simp only [collectBSoup] at hx
    have hrest : ∀ a ∈ rest, a ∈ S := fun a ha => hu a (List.mem_cons_of_mem _ ha)
    have hins : ∀ (c : String) (y : String),
        y ∈ keysAL (insertAL contents u c) → y ∈ S := by
      intro c y hy
      rcases keysAL_insertAL contents u c y hy with h1 | h1
      · rw [h1]; exact hu u (List.mem_cons_self u rest)
      · exact hc y h1
    by_cases h : pyStartsWith (extract_content_from_url fetch getText u) "Error" = false
    · rw [if_pos h] at hx
      exact ih _ _ hrest (hins _) x hx
    · rw [if_neg h] at hx
      exact ih _ _ hrest hc x hx

/-- The traditional-method loop only adds keys from its URL list. -/
theorem collectSimple_keys (S : List String) (fetch : String → Except String String)
    (getText : String → String) (urls : List String) :
    ∀ contents, (∀ u ∈ urls, u ∈ S) → (∀ x ∈ keysAL contents, x ∈ S) →
      ∀ x ∈ keysAL (collectSimple fetch getText urls contents), x ∈ S := by
  induction urls with
  | nil =>
    intro contents _ hc
    simpa [collectSimple] using hc
  | cons u rest ih =>
    intro contents hu hc x hx
    simp only [collectSimple] at hx
    refine ih _ (fun a ha => hu a (List.mem_cons_of_mem _ ha)) ?_ x hx
    intro y hy
    rcases keysAL_insertAL contents u _ y hy with h1 | h1
    · rw [h1]; exact hu u (List.mem_cons_self u rest)
    · exact hc y h1

/-- Every document the batch extractor returns is either an error sentinel
or carries a source URL the loader fetched, provided the loader tags each
document with one of the requested URLs (the AsyncHtmlLoader contract). -/
theorem html2text_sources (load : List String → List Document) (h2t : String → String)
    (urls : List String) (H : ∀ d ∈ load urls, d.source ∈ urls) :
    ∀ d ∈ extract_content_with_html2text load h2t urls,
      pyStartsWith d.page_content "Error" = true ∨ d.source ∈ urls := by
  intro d hd
  simp only [extract_content_with_html2text] at hd
  by_cases hl : (load urls).isEmpty = true
  · rw [if_pos hl] at hd
    simp only [List.mem_singleton] at hd
    subst hd
    exact Or.inl (by
      show pyStartsWith "Error extracting content from URLs: No content extracted" "Error" = true
      decide)
  · rw [if_neg hl] at hd
    by_cases hv : (((load urls).map
        (fun x => { x with page_content := h2t x.page_content })).filter
          (fun d => 10 ≤ (pyStrip d.page_content).length)).isEmpty = true
    · rw [if_pos hv] at hd
      simp only [List.mem_singleton] at hd
      subst hd
      exact Or.inl (by
        show pyStartsWith
          "Error extracting content from URLs: All documents had insufficient content" "Error" = true
        decide)
    · rw [if_neg hv] at hd
      have hmem := (List.mem_filter.mp hd).1
      obtain ⟨x, hx, rfl⟩ := List.mem_map.mp hmem
      exact Or.inr (H x hx)

/-- C6: for every strategy flag, the key set of the dict `process_urls`
returns is a subset of the cleaned input URLs, given that the batch loader
tags every document it returns with one of the URLs it was asked to fetch. -/
theorem process_urls_keys_subset (E : Extractors) (urls : List String) (b : Bool)
    (_hne : urls ≠ [])
    (hload : ∀ d ∈ E.load (clean_urls urls), d.source ∈ clean_urls urls) :
    ∀ k ∈ keysAL (process_urls E urls b).1, k ∈ clean_urls urls := by
  intro k hk
  simp only [process_urls] at hk
  split at hk
  · have hbatch : ∀ x ∈ keysAL (afterBatch E (clean_urls urls)).1, x ∈ clean_urls urls := by
      unfold afterBatch batchDocs
      exact collectBatch_keys _ _ [] false
        (html2text_sources E.load E.h2t (clean_urls urls) hload) (by simp [keysAL])
    have hweb : ∀ x ∈ keysAL (afterWebBase E (clean_urls urls)).1, x ∈ clean_urls urls := by
      unfold afterWebBase
      by_cases h : (afterBatch E (clean_urls urls)).2 = true
      · rw [if_pos h]; exact hbatch
      · rw [if_neg h]
        exact collectWebBase_keys _ E.loadW (clean_urls urls) _ false (fun u hu => hu) hbatch
    have hlc : ∀ x ∈ keysAL (langchainContents E (clean_urls urls)), x ∈ clean_urls urls := by
      unfold langchainContents
      by_cases h : (afterWebBase E (clean_urls urls)).2 = true
      · rw [if_pos h]; exact hweb
      · rw [if_neg h]
        exact collectBSoup_keys _ E.fetch E.getText (clean_urls urls) _ false (fun u hu => hu) hweb
    exact hlc k hk
  · exact collectSimple_keys _ E.fetch E.getText (clean_urls urls) [] (fun u hu => hu)
      (by simp [keysAL]) k hk

/-- Witness for C6: with a batch loader returning one well-sourced valid
document, the single key of the output is the cleaned input URL. -/
theorem process_urls_keys_subset_witness :
    ("https://a" : String) ∈ clean_urls ["a"] :=
  process_urls_keys_subset batchOkExtractors ["a"] true (by decide) (by decide)
    "https://a" (by decide)

/-- C1: the mapping `process_urls` returns can contain an error sentinel.
With a failing fetch on the simple-strategy path, the returned dict maps
the cleaned URL to the `"Error ..."` placeholder — the final-reconciliation
filter (`valid_contents`, lines 88-93 of `document_processing.py`) would
remove it, but line 100 returns the unfiltered `contents` instead, so the
filter's output is discarded. -/
theorem process_urls_returns_error_sentinel :
    (process_urls failingExtractors ["example.com"] false).1 =
      [("https://example.com",
        "Error extracting content from https://example.com: connection refused")] ∧
    pyStartsWith "Error extracting content from https://example.com: connection refused"
      "Error" = true ∧
    final_valid_contents (process_urls failingExtractors ["example.com"] false).1 = [] := by
  refine ⟨?_, by decide, ?_⟩ <;> decide

end WebSage
